import Mathlib

/-!
Verification of the FastTQ dispatch core against its specification.

The definitions below are a shallow embedding of the Rust sources:
  - `src/server/libs/common/src/models/{task_kinds,tasks,workers}.rs`
  - `src/server/libs/common/src/brokers/mod.rs` (the `Broker` coordinator)
  - `src/server/services/galactus/src/repo/impls/task_instance_repo.rs`
  - `src/server/services/manager/src/repo/impls/worker_repo.rs`
  - `src/server/services/galactus/src/repo/impls/worker_repo.rs`
  - `src/server/services/manager/src/api/tasks.rs`
  - `src/server/services/galactus/src/api/workers.rs`

UUIDs are modelled as natural numbers, UTC instants as a logical clock
(natural number supplied by the environment where the SQL uses NOW or a
column default), and JSON documents by a small value type.  A Rust
function that can panic is embedded as an `Option`-returning function
where `none` marks the panic; a function returning `Result` is embedded
with `Except` (or `Option` where the caller collapses every error the
same way, as the handlers do).  SQL statements are embedded over lists
of rows; a failing statement rolls its transaction back, which the
embedding renders as an error result with the state unchanged.
-/

namespace FastTQ

/-- UUIDs (the `uuid::Uuid` values of the source) modelled as naturals. -/
abbrev Uuid := Nat

/-- A shallow model of `serde_json::Value` documents. -/
inductive Json where
  | null
  | str (s : String)
  | num (n : Int)
  | boolean (b : Bool)
deriving DecidableEq

deriving instance DecidableEq for Except

/-- `TaskKind` from `models/task_kinds.rs`: an id and a name. -/
structure TaskKind where
  id : Uuid
  name : String
deriving DecidableEq

/-- `TaskStatus` from `models/tasks.rs`: the twelve variants. -/
inductive TaskStatus where
  | pending
  | accepted
  | queued
  | running
  | paused
  | retrying
  | completed
  | failed
  | cancelled
  | timeout
  | rejected
  | blocked
deriving DecidableEq

/-- `TryFrom<&str> for TaskStatus` from `models/tasks.rs`: exact match on
the twelve lowercase names, otherwise an error. -/
def TaskStatus.tryFrom (s : String) : Except String TaskStatus :=
  if s = "pending" then .ok .pending
  else if s = "accepted" then .ok .accepted
  else if s = "queued" then .ok .queued
  else if s = "running" then .ok .running
  else if s = "paused" then .ok .paused
  else if s = "retrying" then .ok .retrying
  else if s = "completed" then .ok .completed
  else if s = "failed" then .ok .failed
  else if s = "cancelled" then .ok .cancelled
  else if s = "timeout" then .ok .timeout
  else if s = "rejected" then .ok .rejected
  else if s = "blocked" then .ok .blocked
  else .error ("Invalid task status: " ++ s)

/-- `From<TaskStatus> for String` from `models/tasks.rs`. -/
def TaskStatus.toDbString : TaskStatus → String
  | .pending => "pending"
  | .accepted => "accepted"
  | .queued => "queued"
  | .running => "running"
  | .paused => "paused"
  | .retrying => "retrying"
  | .completed => "completed"
  | .failed => "failed"
  | .cancelled => "cancelled"
  | .timeout => "timeout"
  | .rejected => "rejected"
  | .blocked => "blocked"

/-- `TaskResult` from `models/tasks.rs`. -/
structure TaskResult where
  task_id : Uuid
  output_data : Option Json
  error_data : Option Json
  worker_id : Uuid
  created_at : Nat
deriving DecidableEq

/-- `TaskInstance` from `models/tasks.rs`. -/
structure TaskInstance where
  id : Uuid
  task_kind : TaskKind
  input_data : Option Json
  status : TaskStatus
  created_at : Nat
  assigned_to : Option Uuid
  result : Option TaskResult
deriving DecidableEq

/-- `Worker` from `models/workers.rs`. -/
structure Worker where
  id : Uuid
  name : String
  registered_at : Nat
  task_kind : List TaskKind
  active : Bool
deriving DecidableEq

/-- `Worker::can_handle` from `models/workers.rs`: some capability kind
has the same name as the task's kind. -/
def Worker.canHandle (w : Worker) (t : TaskInstance) : Bool :=
  w.task_kind.any (fun kind => kind.name == t.task_kind.name)

/-! ## The Broker coordinator (`common/src/brokers/mod.rs`)

The abstract `BrokerCore` driver is modelled by a log of accepted
messages: `publish_message` appends one entry and succeeds.  The
`Broker::publish` body hands the driver three arguments — the task
kind's name as the exchange, the selected worker's `name` as the
routing key, and the serialized input payload — which is what the log
entry records.  (The serialization `serde_json::to_vec` is modelled as
the `Option Json` value itself.) -/

/-- One message accepted by the broker driver, with the arguments that
`Broker::publish` passes to `publish_message`. -/
structure Message where
  exchange : String
  routing_key : String
  payload : Option Json
deriving DecidableEq

/-- The `Broker` struct of `common/src/brokers/mod.rs`: registered
workers, the round-robin cursor, and (for the driver) the message log. -/
structure Broker where
  workers : List Worker
  workers_index : Nat
  log : List Message
deriving DecidableEq

/-- The selection loop of `Broker::publish`: the Rust code maps over
`0..workers.len()`, at each step reading `workers[workers_index]`,
advancing `workers_index = (workers_index + 1) % workers.len()`, and
`find`s the first probed worker with `can_handle`.  `find` is lazy, so
exactly one probe happens per examined worker.  The outer `none` marks
the panic of the Rust index expression when the cursor is out of range;
`some (idx, none)` is exhaustion with the final cursor value. -/
def probeLoop (workers : List Worker) (t : TaskInstance) :
    Nat → Nat → Option (Nat × Option Worker)
  | 0, idx => some (idx, none)
  | fuel + 1, idx =>
    match workers.get? idx with
    | none => none
    | some w =>
      let idx2 := (idx + 1) % workers.length
      if w.canHandle t then some (idx2, some w)
      else probeLoop workers t fuel idx2

/-- `Broker::publish` from `common/src/brokers/mod.rs`.  On success it
calls `publish_message(task.task_kind.name, worker.name, payload)` and
returns the worker's id; with no acceptable worker it returns the
`"No available worker"` error.  The outer `none` is a panic. -/
def Broker.publish (b : Broker) (t : TaskInstance) :
    Option (Broker × Except String Uuid) :=
  match probeLoop b.workers t b.workers.length b.workers_index with
  | none => none
  | some (idx2, none) =>
    some ({ b with workers_index := idx2 }, .error "No available worker")
  | some (idx2, some w) =>
    some ({ b with
              workers_index := idx2,
              log := b.log ++ [⟨t.task_kind.name, w.name, t.input_data⟩] },
          .ok w.id)

/-- `Broker::remove_worker` from `common/src/brokers/mod.rs`: position
of the first entry with the id, then `unwrap` — `none` marks the panic
when no entry matches. -/
def Broker.removeWorker (b : Broker) (worker_id : Uuid) : Option Broker :=
  match b.workers.findIdx? (fun w => w.id == worker_id) with
  | none => none
  | some i => some { b with workers := b.workers.eraseIdx i }

/-- `Broker::register_worker` from `common/src/brokers/mod.rs`: queue
declarations on the driver (no observable state here) and an append to
the registry. -/
def Broker.registerWorker (b : Broker) (w : Worker) : Broker :=
  { b with workers := b.workers ++ [w] }

/-- Placeholder worker for out-of-range reads in specification
statements (never produced by in-range reads). -/
def dfltWorker : Worker := ⟨0, "", 0, [], false⟩

/-- The worker probed `i` steps after the cursor (used to state the
round-robin property). -/
def Broker.probeAt (b : Broker) (i : Nat) : Worker :=
  b.workers.getD ((b.workers_index + i) % b.workers.length) dfltWorker

/-- Repeated `Broker::publish` calls, collecting the returned worker id
of each call (`none` for a failed or panicking call). -/
def Broker.publishRun (b : Broker) (t : TaskInstance) : Nat → List (Option Uuid)
  | 0 => []
  | k + 1 =>
    match b.publish t with
    | none => [none]
    | some (b2, .ok wid) => some wid :: b2.publishRun t k
    | some (b2, .error _) => none :: b2.publishRun t k

/-! ## The task store (`galactus/src/repo/impls/task_instance_repo.rs`)

The relational state the store touches: `task_kinds`, `tasks` and
`task_results` rows (schema of spec section 6: `tasks.id` is the
primary key, `tasks.task_kind_id` and `task_results.task_id` are
foreign keys).  A statement that violates a key constraint makes the
operation fail with its transaction rolled back; the embedding returns
`none` and the caller keeps the unchanged state. -/

/-- A `tasks` row. -/
structure TaskRow where
  id : Uuid
  task_kind_id : Uuid
  input_data : Option Json
  status : TaskStatus
  assigned_to : Option Uuid
  created_at : Nat
deriving DecidableEq

/-- The tables used by the task-instance and task-kind repositories. -/
structure Db where
  task_kinds : List TaskKind
  tasks : List TaskRow
  task_results : List TaskResult
deriving DecidableEq

/-- `create_task`: INSERT a pending, unassigned row (fails on a
duplicate primary key), then fetch the kind row (fails when absent)
and return the composed `TaskInstance`. -/
def createTask (db : Db) (task_id task_kind_id : Uuid) (input : Option Json)
    (now : Nat) : Option (Db × TaskInstance) :=
  if db.tasks.any (fun r => r.id == task_id) then none
  else
    match db.task_kinds.find? (fun k => k.id == task_kind_id) with
    | none => none
    | some kind =>
      let row : TaskRow := ⟨task_id, task_kind_id, input, .pending, none, now⟩
      some ({ db with tasks := db.tasks ++ [row] },
            ⟨task_id, kind, input, .pending, now, none, none⟩)

/-- `assign_task_to_worker`: one UPDATE setting `assigned_to` and
`status = queued` on the matching row; matching no row is not an
error. -/
def assignTaskToWorker (db : Db) (task_id worker_id : Uuid) : Db :=
  { db with
      tasks := db.tasks.map (fun r =>
        if r.id == task_id then
          { r with assigned_to := some worker_id, status := .queued }
        else r) }

/-- `update_task_status`: one UPDATE setting `status` on the matching
row; `assigned_to` is untouched and no transition is validated. -/
def updateTaskStatus (db : Db) (task_id : Uuid) (status : TaskStatus) : Db :=
  { db with
      tasks := db.tasks.map (fun r =>
        if r.id == task_id then { r with status := status } else r) }

/-- Fold step selecting the row with the greatest `created_at` (the
earlier row wins a tie, matching an arbitrary-but-fixed tie order of
the SQL sort). -/
def newerOf (acc : Option TaskResult) (r : TaskResult) : Option TaskResult :=
  match acc with
  | none => some r
  | some best => if best.created_at < r.created_at then some r else some best

/-- The `ORDER BY created_at DESC LIMIT 1` query of `get_task_by_id`:
the result row for the task with the greatest `created_at`. -/
def latestResult (rows : List TaskResult) (task_id : Uuid) : Option TaskResult :=
  (rows.filter (fun r => r.task_id == task_id)).foldl newerOf none

/-- `get_task_by_id`: fetch the task row (error when absent), fetch its
kind row, and when `include_result` attach the most recent result row.
Every failure collapses to `none`; the status-update and result-upload
handlers map any failure here to a 404. -/
def getTaskById (db : Db) (id : Uuid) (include_result : Bool) :
    Option TaskInstance :=
  match db.tasks.find? (fun r => r.id == id) with
  | none => none
  | some row =>
    match db.task_kinds.find? (fun k => k.id == row.task_kind_id) with
    | none => none
    | some kind =>
      some ⟨row.id, kind, row.input_data, row.status, row.created_at,
            row.assigned_to,
            if include_result then latestResult db.task_results id else none⟩

/-- `upload_task_result`: in one transaction, UPDATE the task's status
to `completed` then INSERT a result row with `output_data` set and
`error_data` null.  The insert fails (rolling the transaction back)
when the task row does not exist, by the `task_results.task_id`
foreign key. -/
def uploadTaskResult (db : Db) (task_id worker_id : Uuid) (output : Json)
    (now : Nat) : Option Db :=
  if db.tasks.any (fun r => r.id == task_id) then
    some { db with
             tasks := (updateTaskStatus db task_id .completed).tasks,
             task_results :=
               db.task_results ++ [⟨task_id, some output, none, worker_id, now⟩] }
  else none

/-- `upload_task_error`: symmetric to `upload_task_result` with status
`failed` and `error_data` set, `output_data` null. -/
def uploadTaskError (db : Db) (task_id worker_id : Uuid) (error : Json)
    (now : Nat) : Option Db :=
  if db.tasks.any (fun r => r.id == task_id) then
    some { db with
             tasks := (updateTaskStatus db task_id .failed).tasks,
             task_results :=
               db.task_results ++ [⟨task_id, none, some error, worker_id, now⟩] }
  else none

/-- `get_or_create_task_kind` (`task_kind_repo.rs`): INSERT with a
fresh id, `ON CONFLICT (name)` returning the existing row; a primary
key collision of the fresh id fails the statement. -/
def getOrCreateTaskKind (db : Db) (fresh_id : Uuid) (name : String) :
    Option (Db × TaskKind) :=
  match db.task_kinds.find? (fun k => k.name == name) with
  | some k => some (db, k)
  | none =>
    if db.task_kinds.any (fun k => k.id == fresh_id) then none
    else some ({ db with task_kinds := db.task_kinds ++ [⟨fresh_id, name⟩] },
               ⟨fresh_id, name⟩)

/-! ## The task operations as a transition system (claim C3) -/

/-- One call into the task store, with the environment-chosen fresh
ids/instants as parameters. -/
inductive TaskOp where
  | create (task_id task_kind_id : Uuid) (input : Option Json) (now : Nat)
  | assign (task_id worker_id : Uuid)
  | setStatus (task_id : Uuid) (status : TaskStatus)
  | uploadResult (task_id worker_id : Uuid) (output : Json) (now : Nat)
  | uploadError (task_id worker_id : Uuid) (error : Json) (now : Nat)
deriving DecidableEq

/-- Whether the call is `update_task_status`. -/
def TaskOp.isSetStatus : TaskOp → Bool
  | .setStatus _ _ => true
  | _ => false

/-- Apply one store call; a failed call leaves the state unchanged
(rolled-back transaction). -/
def applyTaskOp (db : Db) : TaskOp → Db
  | .create tid kid input now =>
    match createTask db tid kid input now with
    | some (db2, _) => db2
    | none => db
  | .assign tid wid => assignTaskToWorker db tid wid
  | .setStatus tid st => updateTaskStatus db tid st
  | .uploadResult tid wid o now => (uploadTaskResult db tid wid o now).getD db
  | .uploadError tid wid e now => (uploadTaskError db tid wid e now).getD db

/-- Apply a sequence of store calls in order. -/
def applyTaskOps (db : Db) (ops : List TaskOp) : Db :=
  ops.foldl applyTaskOp db

/-- One row of the claimed store invariant: a `queued` row is
assigned, a `pending` row is unassigned. -/
def taskRowOk (r : TaskRow) : Bool :=
  (r.status != .queued || r.assigned_to.isSome) &&
  (r.status != .pending || r.assigned_to.isNone)

/-- The claimed store invariant over every task row. -/
def taskInvHolds (db : Db) : Bool :=
  db.tasks.all taskRowOk

/-! ## The worker store
(`manager/src/repo/impls/worker_repo.rs` and
`galactus/src/repo/impls/worker_repo.rs`) -/

/-- A `workers` row; `active` defaults to true on insert. -/
structure WorkerRow where
  id : Uuid
  name : String
  registered_at : Nat
  active : Bool
deriving DecidableEq

/-- The tables the worker repositories touch: `workers`, `task_kinds`
and the association table (`worker_task_kinds` in the manager service,
`worker_task_types` in galactus — both are `(worker_id, kind_id)` rows
with a composite primary key). -/
structure WorkerDb where
  workers : List WorkerRow
  task_kinds : List TaskKind
  assocs : List (Uuid × Uuid)
deriving DecidableEq

/-- The association-kind ids currently stored for one worker. -/
def assocKindsOf (db : WorkerDb) (worker_id : Uuid) : List Uuid :=
  (db.assocs.filter (fun p => p.1 == worker_id)).map (fun p => p.2)

/-- The per-kind loop of `register_worker` (manager version).  First
statement: `INSERT INTO task_kinds (id, name) VALUES ($1, $2) ON
CONFLICT (id) DO NOTHING` — an existing row with the same id arbitrates
the conflict and the insert is skipped; otherwise the row is inserted,
and a collision with the `UNIQUE (task_kinds.name)` constraint (a row
with the same name under a different id) is not arbitrated by the
`(id)` conflict target, so the statement aborts the transaction.
Second statement: INSERT the association row, which aborts on the
composite primary key when the pair is already present.  (The galactus
version omits the kind-table insert; its association insert can abort
on the kind-id foreign key instead — either way a `none` rolls the
whole registration back.) -/
def insertKindRows (worker_id : Uuid) :
    List TaskKind → List (Uuid × Uuid) → List TaskKind →
    Option (List TaskKind × List (Uuid × Uuid))
  | kinds_tbl, assocs, [] => some (kinds_tbl, assocs)
  | kinds_tbl, assocs, k :: rest =>
    match (if kinds_tbl.any (fun e => e.id == k.id) then some kinds_tbl
           else if kinds_tbl.any (fun e => e.name == k.name) then none
           else some (kinds_tbl ++ [k])) with
    | none => none
    | some kinds_tbl2 =>
      if assocs.any (fun p => p == (worker_id, k.id)) then none
      else insertKindRows worker_id kinds_tbl2 (assocs ++ [(worker_id, k.id)]) rest

/-- `register_worker` (both services): in one transaction, upsert the
`workers` row (`ON CONFLICT (id) DO UPDATE SET name`, so
`registered_at` and `active` survive re-registration), DELETE every
association row of the worker, then insert one association per given
kind.  `none` is a failed (rolled back) transaction. -/
def registerWorker (db : WorkerDb) (id : Uuid) (name : String)
    (kinds : List TaskKind) (now : Nat) : Option WorkerDb :=
  let workers2 :=
    if db.workers.any (fun w => w.id == id) then
      db.workers.map (fun w => if w.id == id then { w with name := name } else w)
    else db.workers ++ [⟨id, name, now, true⟩]
  let cleared := db.assocs.filter (fun p => p.1 != id)
  match insertKindRows id db.task_kinds cleared kinds with
  | none => none
  | some (kinds_tbl2, assocs2) =>
    some ⟨workers2, kinds_tbl2, assocs2⟩

/-- One `register_worker` call with its environment-chosen instant. -/
structure RegisterCall where
  id : Uuid
  name : String
  kinds : List TaskKind
  now : Nat
deriving DecidableEq

/-- Apply one registration; a failed transaction leaves the state
unchanged. -/
def applyRegister (db : WorkerDb) (c : RegisterCall) : WorkerDb :=
  (registerWorker db c.id c.name c.kinds c.now).getD db

/-- Apply a sequence of registrations in order. -/
def applyRegisterSeq (db : WorkerDb) (cs : List RegisterCall) : WorkerDb :=
  cs.foldl applyRegister db

/-- `set_worker_active`, manager version
(`manager/src/repo/impls/worker_repo.rs`): UPDATE the row, then return
`RowNotFound` (here `Except.error ()`) when zero rows were affected. -/
def managerSetWorkerActive (db : WorkerDb) (worker_id : Uuid) (active : Bool) :
    Except Unit WorkerDb :=
  let db2 : WorkerDb :=
    { db with
        workers := db.workers.map (fun w =>
          if w.id == worker_id then { w with active := active } else w) }
  if db.workers.countP (fun w => w.id == worker_id) == 0 then .error ()
  else .ok db2

/-- `set_worker_active`, galactus version
(`galactus/src/repo/impls/worker_repo.rs`): the same UPDATE with no
rows-affected check — it never reports `RowNotFound`. -/
def galactusSetWorkerActive (db : WorkerDb) (worker_id : Uuid) (active : Bool) :
    Except Unit WorkerDb :=
  .ok { db with
          workers := db.workers.map (fun w =>
            if w.id == worker_id then { w with active := active } else w) }

/-! ## HTTP handlers -/

/-- `PUT /tasks/:id/status` (`manager/src/api/tasks.rs`
`update_task_status`): parse the body with `TaskStatus::try_from` on
the raw string (400 on error, nothing touched), load the task (any
load failure becomes 404), then update the status (200). -/
def updateTaskStatusHandler (db : Db) (id : Uuid) (body : String) : Db × Nat :=
  match TaskStatus.tryFrom body with
  | .error _ => (db, 400)
  | .ok st =>
    match getTaskById db id true with
    | none => (db, 404)
    | some task => (updateTaskStatus db task.id st, 200)

/-- `PUT /tasks/:id/result` (`manager/src/api/tasks.rs`
`update_task_result`): load the task (404 on failure), then credit
`task.assigned_to.unwrap()` — `none` marks that panic — and route to
the error or result upload on `is_error` (500 when the upload fails,
else 200). -/
def updateTaskResultHandler (db : Db) (id : Uuid) (data : Json)
    (is_error : Bool) (now : Nat) : Option (Db × Nat) :=
  match getTaskById db id true with
  | none => some (db, 404)
  | some task =>
    match task.assigned_to with
    | none => none
    | some wid =>
      let upload :=
        if is_error then uploadTaskError db task.id wid data now
        else uploadTaskResult db task.id wid data now
      match upload with
      | none => some (db, 500)
      | some db2 => some (db2, 200)

/-- The submit-side state: the store plus the shared broker
coordinator (taken under a write lock by the handler). -/
structure SubmitState where
  db : Db
  broker : Broker
deriving DecidableEq

/-- `POST /tasks` (`manager/src/api/tasks.rs` `create_task`):
get-or-create the kind, create the pending task row, publish through
the broker, then assign; each failing step returns 500 with the work
of the earlier steps kept.  201 with everything done.  The outer
`none` is a panic inside `Broker::publish`. -/
def createTaskHandler (st : SubmitState) (kind_name : String)
    (input : Option Json) (fresh_kind_id fresh_task_id : Uuid) (now : Nat) :
    Option (SubmitState × Nat) :=
  match getOrCreateTaskKind st.db fresh_kind_id kind_name with
  | none => some (st, 500)
  | some (db1, kind) =>
    match createTask db1 fresh_task_id kind.id input now with
    | none => some ({ st with db := db1 }, 500)
    | some (db2, task) =>
      match st.broker.publish task with
      | none => none
      | some (b2, .error _) => some (⟨db2, b2⟩, 500)
      | some (b2, .ok wid) =>
        some (⟨assignTaskToWorker db2 task.id wid, b2⟩, 201)

/-- `DELETE /workers/:id` (`galactus/src/api/workers.rs`
`unregister_worker`) over the manager `set_worker_active`:
`RowNotFound` becomes 404, then `Broker::remove_worker` (whose panic
is the outer `none`; its error would become 500), then 200. -/
def unregisterWorkerHandler (db : WorkerDb) (b : Broker) (id : Uuid) :
    Option (WorkerDb × Broker × Nat) :=
  match managerSetWorkerActive db id false with
  | .error () => some (db, b, 404)
  | .ok db2 =>
    match b.removeWorker id with
    | none => none
    | some b2 => some (db2, b2, 200)

/-! ## Lemmas about the selection loop -/

lemma get?_eq_getD_of_lt {α : Type} (l : List α) (d : α) (i : Nat)
    (h : i < l.length) : l.get? i = some (l.getD i d) := by
  induction l generalizing i with
  | nil => simp at h
  | cons a l ih =>
    cases i with
    | zero => simp
    | succ n =>
      simp only [List.length_cons] at h
      simpa using ih n (by omega)

lemma probeLoop_found (workers : List Worker) (t : TaskInstance)
    (fuel idx : Nat) (w : Worker) (hg : workers.get? idx = some w)
    (helig : w.canHandle t = true) :
    probeLoop workers t (fuel + 1) idx =
      some ((idx + 1) % workers.length, some w) := by
  rw [probeLoop, hg]
  simp only [helig]
  rfl

lemma probeLoop_step (workers : List Worker) (t : TaskInstance)
    (fuel idx : Nat) (w : Worker) (hg : workers.get? idx = some w)
    (helig : w.canHandle t = false) :
    probeLoop workers t (fuel + 1) idx =
      probeLoop workers t fuel ((idx + 1) % workers.length) := by
  rw [probeLoop, hg]
  simp only [helig]
  rfl

/-- Exhaustion: when every one of the next `fuel` probed workers
refuses the task, the loop returns the advanced cursor and no worker. -/
lemma probeLoop_exhaust (workers : List Worker) (t : TaskInstance) :
    ∀ (fuel c : Nat), c < workers.length →
      (∀ i, i < fuel →
        ((workers.getD ((c + i) % workers.length) dfltWorker).canHandle t) = false) →
      probeLoop workers t fuel c = some ((c + fuel) % workers.length, none) := by
  intro fuel
  induction fuel with
  | zero =>
    intro c hc _
    simp [probeLoop, Nat.mod_eq_of_lt hc]
  | succ f ih =>
    intro c hc hno
    have h0 : ((workers.getD c dfltWorker).canHandle t) = false := by
      have := hno 0 (by omega)
      simpa [Nat.mod_eq_of_lt hc] using this
    rw [probeLoop_step workers t f c (workers.getD c dfltWorker)
      (get?_eq_getD_of_lt workers dfltWorker c hc) h0]
    have hlen : 0 < workers.length := by omega
    have hc2 : (c + 1) % workers.length < workers.length := Nat.mod_lt _ hlen
    rw [ih ((c + 1) % workers.length) hc2 ?_]
    · rw [Nat.mod_add_mod]
      have harg : c + 1 + f = c + (f + 1) := by omega
      rw [harg]
    · intro i hi
      have := hno (i + 1) (by omega)
      rw [Nat.mod_add_mod]
      have harg : c + 1 + i = c + (i + 1) := by omega
      rw [harg]
      exact this

/-- First hit: when the first `j` probed workers refuse the task and
the `j`-th accepts it, the loop stops there, with the cursor one past
the accepting worker. -/
lemma probeLoop_first_hit (workers : List Worker) (t : TaskInstance) :
    ∀ (j c fuel : Nat), c < workers.length → j < fuel →
      (∀ i, i < j →
        ((workers.getD ((c + i) % workers.length) dfltWorker).canHandle t) = false) →
      ((workers.getD ((c + j) % workers.length) dfltWorker).canHandle t) = true →
      probeLoop workers t fuel c =
        some ((c + j + 1) % workers.length,
              some (workers.getD ((c + j) % workers.length) dfltWorker)) := by
  intro j
  induction j with
  | zero =>
    intro c fuel hc hfuel _ hhit
    obtain ⟨f, rfl⟩ : ∃ f, fuel = f + 1 := ⟨fuel - 1, by omega⟩
    have hc' : (c + 0) % workers.length = c := by
      simpa using Nat.mod_eq_of_lt hc
    rw [hc'] at hhit ⊢
    rw [probeLoop_found workers t f c (workers.getD c dfltWorker)
      (get?_eq_getD_of_lt workers dfltWorker c hc) hhit]
  | succ j ih =>
    intro c fuel hc hfuel hno hhit
    obtain ⟨f, rfl⟩ : ∃ f, fuel = f + 1 := ⟨fuel - 1, by omega⟩
    have h0 : ((workers.getD c dfltWorker).canHandle t) = false := by
      have := hno 0 (by omega)
      simpa [Nat.mod_eq_of_lt hc] using this
    rw [probeLoop_step workers t f c (workers.getD c dfltWorker)
      (get?_eq_getD_of_lt workers dfltWorker c hc) h0]
    have hlen : 0 < workers.length := by omega
    have hc2 : (c + 1) % workers.length < workers.length := Nat.mod_lt _ hlen
    have hshift : ∀ i, ((c + 1) % workers.length + i) % workers.length =
        (c + (i + 1)) % workers.length := by
      intro i
      rw [Nat.mod_add_mod]
      congr 1
      omega
    rw [ih ((c + 1) % workers.length) f hc2 (by omega) ?_ ?_]
    · rw [hshift j]
      have h1 : (c + 1) % workers.length + j + 1 =
          (c + 1) % workers.length + (j + 1) := by omega
      rw [h1, hshift (j + 1)]
      have h2 : c + (j + 1 + 1) = c + (j + 1) + 1 := by omega
      rw [h2]
    · intro i hi
      rw [hshift i]
      exact hno (i + 1) (by omega)
    · rw [hshift j]
      exact hhit

/-- A call with no acceptable worker fails with the
`"No available worker"` error and leaves the broker (cursor included)
exactly as it was. -/
lemma publish_no_eligible (b : Broker) (t : TaskInstance)
    (hidx : b.workers_index < b.workers.length ∨ b.workers = [])
    (h : ∀ i, i < b.workers.length → (b.probeAt i).canHandle t = false) :
    b.publish t = some (b, .error "No available worker") := by
  rcases hidx with hlt | hnil
  · rw [Broker.publish, probeLoop_exhaust b.workers t b.workers.length
        b.workers_index hlt (fun i hi => h i hi)]
    have : (b.workers_index + b.workers.length) % b.workers.length =
        b.workers_index := by
      rw [Nat.add_mod_right]
      exact Nat.mod_eq_of_lt hlt
    rw [this]
  · obtain ⟨ws, ci, lg⟩ := b
    simp only at hnil
    subst hnil
    rfl

/-- A call whose `j`-th probe is the first acceptable worker publishes
to that worker and advances the cursor to one past it. -/
lemma publish_first_hit (b : Broker) (t : TaskInstance)
    (hidx : b.workers_index < b.workers.length) (j : Nat)
    (hj : j < b.workers.length)
    (hno : ∀ i, i < j → (b.probeAt i).canHandle t = false)
    (hhit : (b.probeAt j).canHandle t = true) :
    b.publish t =
      some ({ b with
                workers_index := (b.workers_index + j + 1) % b.workers.length,
                log := b.log ++
                  [⟨t.task_kind.name, (b.probeAt j).name, t.input_data⟩] },
            .ok (b.probeAt j).id) := by
  rw [Broker.publish, probeLoop_first_hit b.workers t j b.workers_index
    b.workers.length hidx hj (fun i hi => hno i hi) hhit]
  rfl

/-! ## Concrete data used by the claim witnesses -/

/-- A task kind named `k`. -/
def kindK : TaskKind := ⟨1, "k"⟩

/-- A worker able to handle `kindK`. -/
def rrWorker (i : Uuid) (nm : String) : Worker := ⟨i, nm, 0, [kindK], true⟩

/-- Three workers, all eligible for kind `k`, cursor at the start. -/
def rrBroker : Broker :=
  ⟨[rrWorker 10 "w10", rrWorker 11 "w11", rrWorker 12 "w12"], 0, []⟩

/-- A task of kind `k`. -/
def rrTask : TaskInstance := ⟨99, kindK, some (.str "x"), .pending, 0, none, none⟩

/-- A registry holding one worker whose name differs from the string
form of its id. -/
def oneWorkerBroker : Broker := ⟨[⟨5, "worker1", 0, [kindK], true⟩], 0, []⟩

/-- C1.  Round-robin capability-aware selection of `Broker::publish`:
with the cursor in range, (i) when the first `j` probed workers refuse
the task and the `j`-th accepts it, the call publishes exactly one
message for that worker, returns its id and moves the cursor one past
it — so at most `n` probes happen, the cursor advances by one per
probe, and the first acceptable probed worker wins; (ii) when no
probed worker accepts (in particular when the registry is empty) the
call fails with the `"No available worker"` error; (iii) on three
workers all eligible for kind `k`, six consecutive publishes return
`w0, w1, w2, w0, w1, w2`. -/
theorem publish_round_robin (b : Broker) (t : TaskInstance)
    (hidx : b.workers_index < b.workers.length ∨ b.workers = []) :
    (∀ j, j < b.workers.length →
      (∀ i, i < j → (b.probeAt i).canHandle t = false) →
      (b.probeAt j).canHandle t = true →
      b.publish t =
        some ({ b with
                  workers_index := (b.workers_index + j + 1) % b.workers.length,
                  log := b.log ++
                    [⟨t.task_kind.name, (b.probeAt j).name, t.input_data⟩] },
              .ok (b.probeAt j).id))
    ∧ ((∀ i, i < b.workers.length → (b.probeAt i).canHandle t = false) →
        b.publish t = some (b, .error "No available worker"))
    ∧ rrBroker.publishRun rrTask 6 =
        [some 10, some 11, some 12, some 10, some 11, some 12] := by
  refine ⟨?_, ?_, by decide⟩
  · intro j hj hno hhit
    have hlt : b.workers_index < b.workers.length := by
      rcases hidx with h | h
      · exact h
      · rw [h] at hj
        simp at hj
    exact publish_first_hit b t hlt j hj hno hhit
  · intro h
    exact publish_no_eligible b t hidx h

/-- C1 witness: the first publish on the three-worker registry goes to
the worker probed at the cursor. -/
theorem publish_round_robin_witness :
    rrBroker.publish rrTask =
      some ({ rrBroker with
                workers_index := (rrBroker.workers_index + 0 + 1) % rrBroker.workers.length,
                log := rrBroker.log ++
                  [⟨rrTask.task_kind.name, (rrBroker.probeAt 0).name, rrTask.input_data⟩] },
            .ok (rrBroker.probeAt 0).id) :=
  (publish_round_robin rrBroker rrTask (Or.inl (by decide))).1 0 (by decide)
    (fun i hi => by omega) (by decide)

/-- C2.  What `Broker::publish` actually hands the driver on a
successful call: exactly one message is appended, but its exchange is
the task kind's name (not `task_submission`), its routing key is the
worker's `name` (not the string form of the worker id), and the
three-argument `publish_message` call passes no message id at all. -/
theorem publish_wire_mismatch :
    oneWorkerBroker.publish rrTask =
      some ({ oneWorkerBroker with
                workers_index := 0,
                log := [⟨"k", "worker1", some (.str "x")⟩] },
            .ok 5)
    ∧ "k" ≠ "task_submission"
    ∧ "worker1" ≠ Nat.repr 5 := by
  decide

/-- C9.  `Broker::remove_worker` aborts instead of erroring: on a
registry that does not hold the id (empty or not) the
`position(..).unwrap()` panics (`none`); when the id is present the
first matching entry is removed. -/
theorem remove_worker_panics :
    Broker.removeWorker ⟨[], 0, []⟩ 7 = none
    ∧ Broker.removeWorker oneWorkerBroker 3 = none
    ∧ Broker.removeWorker rrBroker 11 =
        some ⟨[rrWorker 10 "w10", rrWorker 12 "w12"], 0, []⟩ := by
  decide

/-! ## Claim C3: the Queued-implies-assigned invariant -/

/-- Shape of a successful `create_task`: the new pending, unassigned
row is appended and the other tables are untouched. -/
lemma createTask_shape (db : Db) (tid kid : Uuid) (input : Option Json)
    (now : Nat) (db2 : Db) (task : TaskInstance)
    (h : createTask db tid kid input now = some (db2, task)) :
    db2.tasks = db.tasks ++ [⟨tid, kid, input, .pending, none, now⟩]
      ∧ db2.task_kinds = db.task_kinds
      ∧ db2.task_results = db.task_results := by
  unfold createTask at h
  split at h
  · exact absurd h (by simp)
  · cases hfind : db.task_kinds.find? (fun k => k.id == kid) with
    | none =>
      rw [hfind] at h
      exact absurd h (by simp)
    | some kind =>
      rw [hfind] at h
      simp only [Option.some.injEq, Prod.mk.injEq] at h
      obtain ⟨h1, h2⟩ := h
      subst h1
      exact ⟨rfl, rfl, rfl⟩

lemma all_map_of_pointwise {α : Type} (l : List α) (p : α → Bool)
    (f : α → α) (hf : ∀ x ∈ l, p x = true → p (f x) = true)
    (h : l.all p = true) : (l.map f).all p = true := by
  rw [List.all_map, List.all_eq_true]
  rw [List.all_eq_true] at h
  intro x hx
  exact hf x hx (h x hx)

/-- Every store call other than `update_task_status` preserves the
invariant. -/
lemma applyTaskOp_preserves (db : Db) (op : TaskOp)
    (hop : op.isSetStatus = false) (h : taskInvHolds db = true) :
    taskInvHolds (applyTaskOp db op) = true := by
  cases op with
  | create tid kid input now =>
    simp only [applyTaskOp]
    cases hcr : createTask db tid kid input now with
    | none => exact h
    | some p =>
      obtain ⟨ht, _, _⟩ := createTask_shape db tid kid input now p.1 p.2 hcr
      unfold taskInvHolds at h ⊢
      rw [ht, List.all_append, h]
      simp [taskRowOk]
  | assign tid wid =>
    unfold applyTaskOp assignTaskToWorker taskInvHolds at *
    refine all_map_of_pointwise _ _ _ ?_ h
    intro r _ hr
    by_cases hid : (r.id == tid) = true
    · simp [hid, taskRowOk]
    · simp only [hid]
      simpa using hr
  | setStatus tid st => simp [TaskOp.isSetStatus] at hop
  | uploadResult tid wid o now =>
    simp only [applyTaskOp]
    cases hu : uploadTaskResult db tid wid o now with
    | none => exact h
    | some db2 =>
      unfold uploadTaskResult at hu
      split at hu
      · simp only [Option.some.injEq] at hu
        subst hu
        unfold taskInvHolds at h ⊢
        unfold updateTaskStatus
        refine all_map_of_pointwise _ _ _ ?_ h
        intro r _ hr
        by_cases hid : (r.id == tid) = true
        · simp [hid, taskRowOk]
        · simp only [hid]
          simpa using hr
      · exact absurd hu (by simp)
  | uploadError tid wid e now =>
    simp only [applyTaskOp]
    cases hu : uploadTaskError db tid wid e now with
    | none => exact h
    | some db2 =>
      unfold uploadTaskError at hu
      split at hu
      · simp only [Option.some.injEq] at hu
        subst hu
        unfold taskInvHolds at h ⊢
        unfold updateTaskStatus
        refine all_map_of_pointwise _ _ _ ?_ h
        intro r _ hr
        by_cases hid : (r.id == tid) = true
        · simp [hid, taskRowOk]
        · simp only [hid]
          simpa using hr
      · exact absurd hu (by simp)

/-- A store holding one kind row and nothing else. -/
def dbC3 : Db := ⟨[kindK], [], []⟩

/-- C3 counterexample.  The claimed invariant fails under
`update_task_status`: creating a task and then setting its status to
`queued` leaves a queued row with `assigned_to` null, and assigning it
and then setting the status back to `pending` leaves a pending row
with `assigned_to` non-null.  Both sequences start from a state that
satisfies the invariant. -/
theorem queued_unassigned_reachable :
    taskInvHolds dbC3 = true
    ∧ taskInvHolds (applyTaskOps dbC3
        [.create 1 1 none 0, .setStatus 1 .queued]) = false
    ∧ taskInvHolds (applyTaskOps dbC3
        [.create 1 1 none 0, .assign 1 5, .setStatus 1 .pending]) = false := by
  decide

/-- C3 (amended).  For every sequence of store calls drawn from
`create_task`, `assign_task_to_worker`, `upload_task_result` and
`upload_task_error` — `update_task_status` excluded — the invariant is
preserved: every `queued` row has `assigned_to` non-null and every
`pending` row has `assigned_to` null. -/
theorem task_inv_no_status_updates (db : Db) (ops : List TaskOp)
    (hops : ∀ op ∈ ops, op.isSetStatus = false)
    (h : taskInvHolds db = true) :
    taskInvHolds (applyTaskOps db ops) = true := by
  induction ops generalizing db with
  | nil => exact h
  | cons op rest ih =>
    simp only [applyTaskOps, List.foldl_cons] at *
    exact ih (applyTaskOp db op)
      (fun o ho => hops o (List.mem_cons_of_mem _ ho))
      (applyTaskOp_preserves db op (hops op (List.mem_cons_self _ _)) h)

/-- C3 witness: a create followed by an assign keeps the invariant. -/
theorem task_inv_no_status_updates_witness :
    taskInvHolds (applyTaskOps dbC3 [.create 1 1 none 0, .assign 1 5]) = true :=
  task_inv_no_status_updates dbC3 [.create 1 1 none 0, .assign 1 5]
    (by decide) (by decide)

/-! ## Claim C5: re-registration replaces the association rows -/

lemma filter_other_of_ne (assocs : List (Uuid × Uuid)) (id w : Uuid)
    (hw : w ≠ id) :
    (assocs.filter (fun p => p.1 != id)).filter (fun p => p.1 == w) =
      assocs.filter (fun p => p.1 == w) := by
  induction assocs with
  | nil => rfl
  | cons a l ih =>
    by_cases h1 : a.1 = w
    · have h2 : (a.1 != id) = true := by
        simp only [bne_iff_ne, ne_eq]
        rw [h1]
        exact hw
      simp [List.filter_cons, h1, h2, ih, hw]
    · by_cases h2 : (a.1 != id) = true
      · simp [List.filter_cons, h1, h2, ih, hw]
      · simp only [List.filter_cons, h2]
        have h3 : (a.1 == w) = false := by simpa using h1
        simp [h3, ih, hw]

/-- Whatever the kind-table branches decide, a committed run of the
per-kind loop appended exactly one association row per supplied kind,
in order. -/
lemma insertKindRows_assocs_of_some (wid : Uuid) :
    ∀ (kinds : List TaskKind) (ktbl : List TaskKind)
      (assocs : List (Uuid × Uuid)) (ktbl2 : List TaskKind)
      (assocs2 : List (Uuid × Uuid)),
      insertKindRows wid ktbl assocs kinds = some (ktbl2, assocs2) →
      assocs2 = assocs ++ kinds.map (fun k => (wid, k.id)) := by
  intro kinds
  induction kinds with
  | nil =>
    intro ktbl assocs ktbl2 assocs2 h
    simp only [insertKindRows, Option.some.injEq, Prod.mk.injEq] at h
    simp [← h.2]
  | cons k rest ih =>
    intro ktbl assocs ktbl2 assocs2 h
    rw [insertKindRows] at h
    split at h
    · exact absurd h (by simp)
    · split at h
      · exact absurd h (by simp)
      · rw [ih _ _ _ _ h]
        simp [List.append_assoc]

/-- Any committed registration stores association rows whose part for
the registered worker was rebuilt and whose part for every other
worker is untouched. -/
lemma registerWorker_assocs_shape (db : WorkerDb) (id : Uuid) (name : String)
    (kinds : List TaskKind) (now : Nat) (db2 : WorkerDb)
    (h : registerWorker db id name kinds now = some db2) :
    ∃ ktbl2, insertKindRows id db.task_kinds
        (db.assocs.filter (fun p => p.1 != id)) kinds =
      some (ktbl2, db2.assocs) := by
  simp only [registerWorker] at h
  cases hrun : insertKindRows id db.task_kinds
      (db.assocs.filter (fun p => p.1 != id)) kinds with
  | none =>
    rw [hrun] at h
    exact absurd h (by simp)
  | some pr =>
    obtain ⟨ktbl2, assocs2⟩ := pr
    rw [hrun] at h
    simp only [Option.some.injEq] at h
    subst h
    exact ⟨ktbl2, rfl⟩

/-- A `register_worker` call that commits stores, for the registered
worker, exactly one association row per supplied kind (in order), and
leaves every other worker's association rows unchanged. -/
lemma registerWorker_assoc_of_some (db : WorkerDb) (id : Uuid)
    (name : String) (kinds : List TaskKind) (now : Nat) (db2 : WorkerDb)
    (h : registerWorker db id name kinds now = some db2) :
    assocKindsOf db2 id = kinds.map TaskKind.id
      ∧ ∀ w, w ≠ id → assocKindsOf db2 w = assocKindsOf db w := by
  obtain ⟨ktbl2, hrun⟩ := registerWorker_assocs_shape db id name kinds now db2 h
  have hassocs : db2.assocs =
      db.assocs.filter (fun p => p.1 != id) ++
        kinds.map (fun k => (id, k.id)) :=
    insertKindRows_assocs_of_some id kinds _ _ _ _ hrun
  have hbase : ∀ p ∈ db.assocs.filter (fun p => p.1 != id), p.1 ≠ id := by
    intro p hp
    have := List.of_mem_filter hp
    simpa using this
  constructor
  · unfold assocKindsOf
    rw [hassocs]
    simp only [List.filter_append]
    have h1 : (db.assocs.filter (fun p => p.1 != id)).filter
        (fun p => p.1 == id) = [] := by
      rw [List.filter_eq_nil]
      intro p hp
      have := hbase p hp
      simpa using this
    have h2 : ((kinds.map (fun k => (id, k.id))).filter
        (fun p => p.1 == id)) = kinds.map (fun k => (id, k.id)) := by
      rw [List.filter_eq_self]
      intro p hp
      obtain ⟨c, _, rfl⟩ := List.mem_map.mp hp
      simp
    rw [h1, h2, List.nil_append, List.map_map]
    rfl
  · intro w hw
    unfold assocKindsOf
    rw [hassocs]
    simp only [List.filter_append]
    have h2 : ((kinds.map (fun k => (id, k.id))).filter
        (fun p => p.1 == w)) = [] := by
      rw [List.filter_eq_nil]
      intro p hp
      obtain ⟨c, _, rfl⟩ := List.mem_map.mp hp
      simp only [beq_iff_eq]
      exact fun hcontra => hw hcontra.symm
    rw [h2, List.append_nil, filter_other_of_ne db.assocs id w hw]

/-- One registration of a different worker id never changes the
association rows of this worker, whether the transaction commits or
rolls back. -/
lemma applyRegister_frame (db : WorkerDb) (c : RegisterCall) (w : Uuid)
    (hw : c.id ≠ w) :
    assocKindsOf (applyRegister db c) w = assocKindsOf db w := by
  unfold applyRegister
  cases hreg : registerWorker db c.id c.name c.kinds c.now with
  | none => rfl
  | some db2 =>
    simp only [Option.getD_some]
    exact (registerWorker_assoc_of_some db c.id c.name c.kinds c.now db2
      hreg).2 w (Ne.symm hw)

lemma applyRegisterSeq_frame (w : Uuid) :
    ∀ (cs : List RegisterCall) (db : WorkerDb),
      (∀ c ∈ cs, c.id ≠ w) →
      assocKindsOf (applyRegisterSeq db cs) w = assocKindsOf db w := by
  intro cs
  induction cs with
  | nil => intro db _; rfl
  | cons c rest ih =>
    intro db hcs
    unfold applyRegisterSeq at *
    rw [List.foldl_cons, ih (applyRegister db c)
        (fun c2 h2 => hcs c2 (List.mem_cons_of_mem _ h2)),
      applyRegister_frame db c w (hcs c (List.mem_cons_self _ _))]

/-- C5 counterexample.  Register worker 7 with kind `(1, k)`, then
re-register it with kind `(2, k)` — a fresh id but an already-stored
name.  The kind-table insert of the second call violates
`UNIQUE (task_kinds.name)` (the `(id)` conflict target does not
arbitrate it), the transaction rolls back, and the association rows
still hold kind 1 — not the kind set supplied by the last call. -/
theorem register_name_collision_keeps_old :
    registerWorker (applyRegisterSeq ⟨[], [], []⟩ [⟨7, "a", [⟨1, "k"⟩], 0⟩])
        7 "b" [⟨2, "k"⟩] 1 = none
    ∧ assocKindsOf (applyRegisterSeq ⟨[], [], []⟩
        [⟨7, "a", [⟨1, "k"⟩], 0⟩, ⟨7, "b", [⟨2, "k"⟩], 1⟩]) 7 = [1]
    ∧ [1] ≠ ([⟨2, "k"⟩] : List TaskKind).map TaskKind.id := by
  decide

/-- C5 (amended).  Replacement semantics of worker re-registration:
for every sequence of `register_worker` calls, (i) when the last call
for a given worker id commits, the association rows stored for that
worker are exactly the kinds supplied by that call — earlier
associations are removed, never merged in; (ii) when that last call's
transaction rolls back, the association rows of the earlier calls
stay in place; (iii) a rollback really happens when a supplied kind's
name collides with a differently-keyed `task_kinds` row. -/
theorem register_worker_replacement (db : WorkerDb)
    (pre post : List RegisterCall) (c : RegisterCall)
    (hpost : ∀ c2 ∈ post, c2.id ≠ c.id) :
    (∀ db2,
      registerWorker (applyRegisterSeq db pre) c.id c.name c.kinds c.now =
        some db2 →
      assocKindsOf (applyRegisterSeq db (pre ++ c :: post)) c.id =
        c.kinds.map TaskKind.id)
    ∧ (registerWorker (applyRegisterSeq db pre) c.id c.name c.kinds c.now =
        none →
      assocKindsOf (applyRegisterSeq db (pre ++ c :: post)) c.id =
        assocKindsOf (applyRegisterSeq db pre) c.id)
    ∧ registerWorker ⟨[], [⟨1, "k"⟩], []⟩ 7 "w" [⟨2, "k"⟩] 0 = none := by
  have hsplit : applyRegisterSeq db (pre ++ c :: post) =
      applyRegisterSeq (applyRegister (applyRegisterSeq db pre) c) post := by
    unfold applyRegisterSeq
    rw [List.foldl_append, List.foldl_cons]
  refine ⟨?_, ?_, by decide⟩
  · intro db2 hcommit
    rw [hsplit, applyRegisterSeq_frame c.id post _ hpost]
    unfold applyRegister
    rw [hcommit]
    exact (registerWorker_assoc_of_some (applyRegisterSeq db pre) c.id
      c.name c.kinds c.now db2 hcommit).1
  · intro hfail
    rw [hsplit, applyRegisterSeq_frame c.id post _ hpost]
    unfold applyRegister
    rw [hfail]
    rfl

/-- C5 witness: register worker 7 with kind `k`, re-register it with
two fresh kinds (the call commits), then register a different worker;
worker 7's association rows are exactly the ids of the second call's
kinds. -/
theorem register_worker_replacement_witness :
    assocKindsOf (applyRegisterSeq ⟨[], [], []⟩
        ([⟨7, "a", [kindK], 0⟩] ++
          (⟨7, "b", [⟨2, "x"⟩, ⟨3, "y"⟩], 1⟩ : RegisterCall) ::
            [⟨8, "c", [kindK], 2⟩])) 7 =
      ([⟨2, "x"⟩, ⟨3, "y"⟩] : List TaskKind).map TaskKind.id :=
  (register_worker_replacement ⟨[], [], []⟩ [⟨7, "a", [kindK], 0⟩]
    [⟨8, "c", [kindK], 2⟩] ⟨7, "b", [⟨2, "x"⟩, ⟨3, "y"⟩], 1⟩ (by decide)).1
    ⟨[⟨7, "b", 0, true⟩], [⟨1, "k"⟩, ⟨2, "x"⟩, ⟨3, "y"⟩], [(7, 2), (7, 3)]⟩
    (by decide)

/-! ## Claim C7: status-string validation -/

/-- The twelve recognized status names, exactly as the `try_from`
match arms spell them. -/
def statusNames : List String :=
  ["pending", "accepted", "queued", "running", "paused", "retrying",
   "completed", "failed", "cancelled", "timeout", "rejected", "blocked"]

lemma tryFrom_isOk_of_mem (s : String) (h : s ∈ statusNames) :
    (TaskStatus.tryFrom s).isOk = true := by
  simp only [statusNames, List.mem_cons, List.not_mem_nil, or_false] at h
  rcases h with rfl | rfl | rfl | rfl | rfl | rfl | rfl | rfl | rfl | rfl |
    rfl | rfl <;> decide

lemma tryFrom_isOk_of_not_mem (s : String) (h : s ∉ statusNames) :
    (TaskStatus.tryFrom s).isOk = false := by
  simp only [statusNames, List.mem_cons, List.not_mem_nil, or_false,
    not_or] at h
  obtain ⟨h1, h2, h3, h4, h5, h6, h7, h8, h9, h10, h11, h12⟩ := h
  unfold TaskStatus.tryFrom
  rw [if_neg h1, if_neg h2, if_neg h3, if_neg h4, if_neg h5, if_neg h6,
    if_neg h7, if_neg h8, if_neg h9, if_neg h10, if_neg h11, if_neg h12]
  rfl

lemma tryFrom_isOk_iff (s : String) :
    (TaskStatus.tryFrom s).isOk = true ↔ s ∈ statusNames := by
  constructor
  · intro h
    by_contra hn
    rw [tryFrom_isOk_of_not_mem s hn] at h
    exact absurd h (by simp)
  · exact tryFrom_isOk_of_mem s

/-- ASCII lowercasing (the case folding relevant to the status names). -/
def lowerChar (c : Char) : Char :=
  if 65 ≤ c.toNat ∧ c.toNat ≤ 90 then Char.ofNat (c.toNat + 32) else c

/-- ASCII lowercase of a string. -/
def lowerAscii (s : String) : String := ⟨s.data.map lowerChar⟩

/-- The spec's acceptance predicate, written from its words: the body
names one of the recognized statuses under case-insensitive
comparison (i.e. its lowercase form parses). -/
def recognizedCaseInsensitive (s : String) : Bool :=
  (TaskStatus.tryFrom (lowerAscii s)).isOk

/-- A store holding one queued, assigned task with id 1. -/
def dbC7 : Db := ⟨[kindK], [⟨1, 1, none, .queued, some 5, 0⟩], []⟩

/-- C7 counterexample.  `"PENDING"` names a recognized status under
case-insensitive comparison, yet the handler rejects it with 400 (the
task row unchanged): the handler parses with the case-sensitive
`TaskStatus::try_from` on the raw body, not case-insensitively. -/
theorem status_case_insensitive_refuted :
    recognizedCaseInsensitive "PENDING" = true
    ∧ updateTaskStatusHandler dbC7 1 "PENDING" = (dbC7, 400) := by
  decide

/-- C7 (amended).  For every `PUT /tasks/:id/status` request, the body
is accepted (the response is not 400) exactly when it equals one of
the twelve lowercase status names — a case-sensitive comparison — and
when it is not one of them the handler returns 400 with the store
untouched. -/
theorem status_validation_exact (db : Db) (id : Uuid) (body : String) :
    ((updateTaskStatusHandler db id body).2 ≠ 400 ↔ body ∈ statusNames)
    ∧ (body ∉ statusNames → updateTaskStatusHandler db id body = (db, 400)) := by
  constructor
  · cases htf : TaskStatus.tryFrom body with
    | error e =>
      have hnot : body ∉ statusNames := by
        rw [← tryFrom_isOk_iff, htf]
        simp [Except.isOk, Except.toBool]
      simp [updateTaskStatusHandler, htf, hnot]
    | ok st =>
      have hmem : body ∈ statusNames := by
        rw [← tryFrom_isOk_iff, htf]
        rfl
      simp only [updateTaskStatusHandler, htf]
      cases hg : getTaskById db id true with
      | none => simp [hmem]
      | some task => simp [hmem]
  · intro hnot
    cases htf : TaskStatus.tryFrom body with
    | error e => simp [updateTaskStatusHandler, htf]
    | ok st =>
      exact absurd ((tryFrom_isOk_iff body).mp (by rw [htf]; rfl)) hnot

/-- C7 witness: an unrecognized body is rejected with 400 and the
store is unchanged. -/
theorem status_validation_exact_witness :
    updateTaskStatusHandler dbC7 1 "bogus" = (dbC7, 400) :=
  (status_validation_exact dbC7 1 "bogus").2 (by decide)

/-! ## Claim C8: `set_worker_active` raises NotFound iff no row -/

/-- C8.  The manager implementation of `set_worker_active` returns
`RowNotFound` exactly when no worker row carries the id (zero rows
affected), otherwise commits the flag update; the
`DELETE /workers/:id` handler maps that `RowNotFound` to 404.  The
galactus implementation, however, never raises `RowNotFound`: on an
empty workers table it still returns Ok — contradicting its own API
test that expects a 404 for an unknown worker. -/
theorem set_worker_active_notfound (db : WorkerDb) (id : Uuid) (a : Bool)
    (b : Broker) :
    (managerSetWorkerActive db id a = .error () ↔
      (db.workers.any (fun w => w.id == id)) = false)
    ∧ (∀ db2, managerSetWorkerActive db id a = .ok db2 →
        db2 = { db with workers := db.workers.map (fun w =>
          if w.id == id then { w with active := a } else w) })
    ∧ (managerSetWorkerActive db id false = .error () →
        unregisterWorkerHandler db b id = some (db, b, 404))
    ∧ galactusSetWorkerActive ⟨[], [], []⟩ 7 false = .ok ⟨[], [], []⟩ := by
  have key : ∀ (a2 : Bool), managerSetWorkerActive db id a2 = .error () ↔
      db.workers.countP (fun w => w.id == id) = 0 := by
    intro a2
    unfold managerSetWorkerActive
    by_cases hc : db.workers.countP (fun w => w.id == id) = 0
    · simp [hc]
    · simp [hc]
  refine ⟨?_, ?_, ?_, by decide⟩
  · rw [key a]
    simp [List.countP_eq_zero, List.any_eq_false]
  · intro db2 h
    unfold managerSetWorkerActive at h
    by_cases hc : db.workers.countP (fun w => w.id == id) = 0
    · rw [if_pos (by simpa using hc)] at h
      exact absurd h (by simp)
    · rw [if_neg (by simpa using hc)] at h
      simp only [Except.ok.injEq] at h
      exact h.symm
  · intro h
    unfold unregisterWorkerHandler
    rw [h]

/-- C8 witness: deleting an unknown worker responds 404 through the
manager repository. -/
theorem set_worker_active_notfound_witness :
    unregisterWorkerHandler ⟨[], [], []⟩ ⟨[], 0, []⟩ 7 =
      some (⟨[], [], []⟩, ⟨[], 0, []⟩, 404) :=
  (set_worker_active_notfound ⟨[], [], []⟩ 7 false ⟨[], 0, []⟩).2.2.1
    (by decide)

/-! ## Claim C10: the result handler unwraps `assigned_to` -/

/-- C10.  The `PUT /tasks/:id/result` handler credits
`task.assigned_to.unwrap()`: when the stored task exists with
`assigned_to` null the unwrap-of-None branch is reached and no
response is produced (the handler panics); when `assigned_to` is
non-null some response is produced; when the task is missing the
response is 404. -/
theorem result_handler_unwrap_precondition (db : Db) (id : Uuid)
    (data : Json) (is_error : Bool) (now : Nat) :
    (∀ task, getTaskById db id true = some task → task.assigned_to = none →
      updateTaskResultHandler db id data is_error now = none)
    ∧ (∀ task wid, getTaskById db id true = some task →
        task.assigned_to = some wid →
        ∃ r, updateTaskResultHandler db id data is_error now = some r)
    ∧ (getTaskById db id true = none →
        updateTaskResultHandler db id data is_error now = some (db, 404)) := by
  refine ⟨?_, ?_, ?_⟩
  · intro task hg ha
    simp [updateTaskResultHandler, hg, ha]
  · intro task wid hg ha
    simp only [updateTaskResultHandler, hg, ha]
    cases is_error with
    | false =>
      cases hu : uploadTaskResult db task.id wid data now with
      | none => exact ⟨(db, 500), by simp [hu]⟩
      | some db2 => exact ⟨(db2, 200), by simp [hu]⟩
    | true =>
      cases hu : uploadTaskError db task.id wid data now with
      | none => exact ⟨(db, 500), by simp [hu]⟩
      | some db2 => exact ⟨(db2, 200), by simp [hu]⟩
  · intro hg
    simp [updateTaskResultHandler, hg]

/-- A store holding one pending, unassigned task with id 1. -/
def dbC10 : Db := ⟨[kindK], [⟨1, 1, none, .pending, none, 0⟩], []⟩

/-- C10 witness: uploading a result for a pending (unassigned) task
reaches the unwrap-of-None branch. -/
theorem result_handler_unwrap_witness :
    updateTaskResultHandler dbC10 1 (.str "d") false 5 = none :=
  (result_handler_unwrap_precondition dbC10 1 (.str "d") false 5).1
    ⟨1, kindK, none, .pending, 0, none, none⟩ (by decide) (by decide)

/-! ## Claim C4: submit-failure atomicity -/

lemma find?_id_of_nodup (l : List TaskKind)
    (hnd : (l.map TaskKind.id).Nodup) (a : TaskKind) (ha : a ∈ l) :
    l.find? (fun k => k.id == a.id) = some a := by
  induction l with
  | nil => cases ha
  | cons x xs ih =>
    rcases List.mem_cons.mp ha with rfl | hmem
    · rw [List.find?_cons_of_pos _ (by simp)]
    · have hne : (x.id == a.id) = false := by
        simp only [List.map_cons, List.nodup_cons] at hnd
        have : a.id ∈ xs.map TaskKind.id := List.mem_map_of_mem _ hmem
        simp only [beq_eq_false_iff_ne, ne_eq]
        intro hcontra
        rw [hcontra] at hnd
        exact hnd.1 this
      rw [List.find?_cons_of_neg _ (by simp [hne])]
      exact ih (by simp only [List.map_cons, List.nodup_cons] at hnd; exact hnd.2)
        hmem

lemma find?_append_of_none {α : Type} (p : α → Bool) (l1 l2 : List α)
    (h : ∀ x ∈ l1, p x = false) :
    (l1 ++ l2).find? p = l2.find? p := by
  induction l1 with
  | nil => rfl
  | cons a as ih =>
    rw [List.cons_append, List.find?_cons_of_neg _
        (by simp [h a (List.mem_cons_self _ _)])]
    exact ih (fun x hx => h x (List.mem_cons_of_mem _ hx))

lemma probeAt_mem (b : Broker) (i : Nat) (h : 0 < b.workers.length) :
    b.probeAt i ∈ b.workers := by
  unfold Broker.probeAt
  have hlt : (b.workers_index + i) % b.workers.length < b.workers.length :=
    Nat.mod_lt _ h
  have := get?_eq_getD_of_lt b.workers dfltWorker
    ((b.workers_index + i) % b.workers.length) hlt
  exact List.get?_mem this

/-- C4.  Submit-failure atomicity of `POST /tasks`: when no registered
worker can handle the submitted kind (the registry may be empty), the
handler responds 500, the broker — message log included — is exactly
as before, and the freshly created task row is kept in the store with
status `pending` and `assigned_to` null; the results table is
untouched.  (The fresh kind id and task id are fresh against the
store, and the kind-table ids are duplicate-free as the primary key
guarantees.) -/
theorem submit_failure_atomic (st : SubmitState) (kind_name : String)
    (input : Option Json) (kid tid : Uuid) (now : Nat)
    (hidx : st.broker.workers_index < st.broker.workers.length ∨
      st.broker.workers = [])
    (helig : ∀ w ∈ st.broker.workers, ∀ k ∈ w.task_kind, k.name ≠ kind_name)
    (hpk : (st.db.task_kinds.map TaskKind.id).Nodup)
    (hkid : ∀ k ∈ st.db.task_kinds, k.id ≠ kid)
    (htid : ∀ r ∈ st.db.tasks, r.id ≠ tid) :
    ∃ st2 kind_id,
      createTaskHandler st kind_name input kid tid now = some (st2, 500)
      ∧ st2.broker = st.broker
      ∧ st2.db.task_results = st.db.task_results
      ∧ st2.db.tasks = st.db.tasks ++
          [⟨tid, kind_id, input, .pending, none, now⟩] := by
  -- step 1: the kind gets resolved, with its stored row named kind_name
  obtain ⟨db1, kind, hgoc, hk1, hk2, hk3, hk4⟩ :
      ∃ db1 kind, getOrCreateTaskKind st.db kid kind_name = some (db1, kind)
        ∧ db1.tasks = st.db.tasks
        ∧ db1.task_results = st.db.task_results
        ∧ db1.task_kinds.find? (fun k => k.id == kind.id) = some kind
        ∧ kind.name = kind_name := by
    unfold getOrCreateTaskKind
    cases hname : st.db.task_kinds.find? (fun k => k.name == kind_name) with
    | some k0 =>
      refine ⟨st.db, k0, rfl, rfl, rfl, ?_, ?_⟩
      · exact find?_id_of_nodup st.db.task_kinds hpk k0
          (List.mem_of_find?_eq_some hname)
      · simpa using List.find?_some hname
    | none =>
      have hno : (st.db.task_kinds.any (fun k => k.id == kid)) = false := by
        rw [List.any_eq_false]
        intro k hk
        simpa using hkid k hk
      rw [hno]
      refine ⟨⟨st.db.task_kinds ++ [TaskKind.mk kid kind_name], st.db.tasks,
        st.db.task_results⟩, TaskKind.mk kid kind_name, rfl, rfl, rfl, ?_, rfl⟩
      rw [find?_append_of_none _ st.db.task_kinds _
          (fun k hk => by simpa using hkid k hk)]
      rw [List.find?_cons_of_pos _ (by simp)]
  -- step 2: the pending task row is created
  obtain ⟨db2, task, hcr, htasks2, hres2, htk⟩ :
      ∃ db2 task, createTask db1 tid kind.id input now = some (db2, task)
        ∧ db2.tasks = st.db.tasks ++ [⟨tid, kind.id, input, .pending, none, now⟩]
        ∧ db2.task_results = st.db.task_results
        ∧ task.task_kind = kind := by
    unfold createTask
    have hno : (db1.tasks.any (fun r => r.id == tid)) = false := by
      rw [List.any_eq_false]
      intro r hr
      rw [hk1] at hr
      simpa using htid r hr
    rw [hno]
    simp only [Bool.false_eq_true, if_false]
    rw [hk3]
    exact ⟨_, _, rfl, by rw [hk1], hk2, rfl⟩
  -- step 3: the broker finds no eligible worker and fails, unchanged
  have hpub : st.broker.publish task = some (st.broker, .error "No available worker") := by
    refine publish_no_eligible st.broker task hidx ?_
    intro i hi
    have hmem := probeAt_mem st.broker i (by omega)
    unfold Worker.canHandle
    rw [List.any_eq_false]
    intro k hk
    rw [htk, hk4]
    simpa using helig _ hmem k hk
  -- step 4: the handler assembles the 500 response
  refine ⟨⟨db2, st.broker⟩, kind.id, ?_, rfl, hres2, htasks2⟩
  simp only [createTaskHandler, hgoc, hcr, hpub]

/-- A submit state with one worker for kind `x` and an empty store. -/
def stC4 : SubmitState := ⟨⟨[], [], []⟩, ⟨[⟨5, "w", 0, [⟨1, "x"⟩], true⟩], 0, []⟩⟩

/-- C4 witness: submitting a task of a kind no worker handles returns
500, leaves the broker untouched and keeps the pending row. -/
theorem submit_failure_atomic_witness :
    ∃ st2 kind_id,
      createTaskHandler stC4 "y" none 2 3 7 = some (st2, 500)
      ∧ st2.broker = stC4.broker
      ∧ st2.db.task_results = stC4.db.task_results
      ∧ st2.db.tasks = stC4.db.tasks ++
          [⟨3, kind_id, none, .pending, none, 7⟩] :=
  submit_failure_atomic stC4 "y" none 2 3 7 (Or.inl (by decide)) (by decide)
    (by decide) (by decide) (by decide)

/-! ## Claim C6: the latest result row wins -/

lemma foldl_newerOf_mem :
    ∀ (l : List TaskResult) (acc : Option TaskResult) (x : TaskResult),
      l.foldl newerOf acc = some x → x ∈ l ∨ acc = some x := by
  intro l
  induction l with
  | nil =>
    intro acc x h
    exact Or.inr h
  | cons a as ih =>
    intro acc x h
    rw [List.foldl_cons] at h
    rcases ih (newerOf acc a) x h with hmem | hacc
    · exact Or.inl (List.mem_cons_of_mem _ hmem)
    · cases acc with
      | none =>
        simp only [newerOf, Option.some.injEq] at hacc
        exact Or.inl (hacc ▸ List.mem_cons_self _ _)
      | some best =>
        simp only [newerOf] at hacc
        split at hacc
        · simp only [Option.some.injEq] at hacc
          exact Or.inl (hacc ▸ List.mem_cons_self _ _)
        · exact Or.inr hacc

/-- Appending a result row strictly newer than every stored row of the
task makes it the latest. -/
lemma latest_append_newer (rs : List TaskResult) (r : TaskResult) (tid : Uuid)
    (hr : r.task_id = tid)
    (hall : ∀ x ∈ rs, x.task_id = tid → x.created_at < r.created_at) :
    latestResult (rs ++ [r]) tid = some r := by
  unfold latestResult
  rw [List.filter_append]
  have hfr : ([r].filter (fun x => x.task_id == tid)) = [r] := by simp [hr]
  rw [hfr, List.foldl_append, List.foldl_cons, List.foldl_nil]
  cases hacc : (rs.filter (fun x => x.task_id == tid)).foldl newerOf none with
  | none => rfl
  | some best =>
    have hmem : best ∈ rs.filter (fun x => x.task_id == tid) := by
      rcases foldl_newerOf_mem _ none best hacc with h | h
      · exact h
      · exact absurd h (by simp)
    have hlt : best.created_at < r.created_at :=
      hall best (List.mem_of_mem_filter hmem)
        (by simpa using List.of_mem_filter hmem)
    simp only [newerOf]
    rw [if_pos hlt]

lemma find?_map_preserve_id (l : List TaskRow) (f : TaskRow → TaskRow)
    (hf : ∀ r, (f r).id = r.id) (tid : Uuid) :
    (l.map f).find? (fun r => r.id == tid) =
      (l.find? (fun r => r.id == tid)).map f := by
  induction l with
  | nil => rfl
  | cons a as ih =>
    simp only [List.map_cons]
    by_cases h : (a.id == tid) = true
    · have e1 : ((f a) :: as.map f).find? (fun r => r.id == tid) = some (f a) :=
        List.find?_cons_of_pos _ (by rw [hf]; exact h)
      have e2 : (a :: as).find? (fun r => r.id == tid) = some a :=
        List.find?_cons_of_pos _ h
      rw [e1, e2]
      rfl
    · have e1 : ((f a) :: as.map f).find? (fun r => r.id == tid) =
          (as.map f).find? (fun r => r.id == tid) :=
        List.find?_cons_of_neg _ (by rw [hf]; exact h)
      have e2 : (a :: as).find? (fun r => r.id == tid) =
          as.find? (fun r => r.id == tid) :=
        List.find?_cons_of_neg _ h
      rw [e1, e2, ih]

/-- The UPDATE of `update_task_status` leaves the task findable, with
only the status changed. -/
lemma find?_updateTaskStatus (db : Db) (tid : Uuid) (st : TaskStatus)
    (row : TaskRow)
    (hfind : db.tasks.find? (fun r => r.id == tid) = some row) :
    (updateTaskStatus db tid st).tasks.find? (fun r => r.id == tid) =
      some { row with status := st } := by
  unfold updateTaskStatus
  rw [find?_map_preserve_id _ _
      (fun r => by by_cases h : (r.id == tid) = true <;> simp [h]) tid, hfind]
  have hp0 := List.find?_some hfind
  have hp : (row.id == tid) = true := hp0
  simp only [Option.map_some', beq_iff_eq] at *
  rw [if_pos hp]

lemma any_of_find? (l : List TaskRow) (tid : Uuid) (row : TaskRow)
    (hfind : l.find? (fun r => r.id == tid) = some row) :
    (l.any (fun r => r.id == tid)) = true := by
  have hp := List.find?_some hfind
  exact List.any_eq_true.mpr ⟨row, List.mem_of_find?_eq_some hfind, hp⟩

/-- C6.  Latest-result semantics: after `upload_task_result` followed
by a strictly later `upload_task_error` (every stored result row of
the task being older still), `get_task_by_id(include_result = true)`
returns the task with status `failed` and the error row (with
`output_data` null) attached as the current result; the earlier result
row still sits in `task_results` but is not the one surfaced. -/
theorem latest_error_after_result (db : Db) (tid wid1 wid2 : Uuid)
    (o e : Json) (t1 t2 : Nat) (row : TaskRow) (kind : TaskKind)
    (hfind : db.tasks.find? (fun r => r.id == tid) = some row)
    (hkind : db.task_kinds.find? (fun k => k.id == row.task_kind_id) = some kind)
    (hold : ∀ x ∈ db.task_results, x.task_id = tid → x.created_at < t1)
    (h12 : t1 < t2) :
    ∃ db1 db2,
      uploadTaskResult db tid wid1 o t1 = some db1
      ∧ uploadTaskError db1 tid wid2 e t2 = some db2
      ∧ (∃ task, getTaskById db2 tid true = some task
          ∧ task.status = .failed
          ∧ task.result = some ⟨tid, none, some e, wid2, t2⟩)
      ∧ (⟨tid, some o, none, wid1, t1⟩ : TaskResult) ∈ db2.task_results := by
  have hany1 := any_of_find? db.tasks tid row hfind
  obtain ⟨db1, h1, hdb1⟩ : ∃ db1, uploadTaskResult db tid wid1 o t1 = some db1
      ∧ db1 = { db with
          tasks := (updateTaskStatus db tid .completed).tasks,
          task_results := db.task_results ++ [⟨tid, some o, none, wid1, t1⟩] } := by
    unfold uploadTaskResult
    rw [if_pos hany1]
    exact ⟨_, rfl, rfl⟩
  have hfind1 : db1.tasks.find? (fun r => r.id == tid) =
      some { row with status := TaskStatus.completed } := by
    rw [hdb1]
    exact find?_updateTaskStatus db tid .completed row hfind
  have hany2 := any_of_find? db1.tasks tid _ hfind1
  obtain ⟨db2, h2, hdb2⟩ : ∃ db2, uploadTaskError db1 tid wid2 e t2 = some db2
      ∧ db2 = { db1 with
          tasks := (updateTaskStatus db1 tid .failed).tasks,
          task_results := db1.task_results ++ [⟨tid, none, some e, wid2, t2⟩] } := by
    unfold uploadTaskError
    rw [if_pos hany2]
    exact ⟨_, rfl, rfl⟩
  have hfind2 : db2.tasks.find? (fun r => r.id == tid) =
      some { row with status := TaskStatus.failed } := by
    rw [hdb2]
    exact find?_updateTaskStatus db1 tid .failed
      { row with status := TaskStatus.completed } hfind1
  have hkinds2 : db2.task_kinds = db.task_kinds := by
    rw [hdb2, hdb1]
  have hres2 : db2.task_results =
      (db.task_results ++ [⟨tid, some o, none, wid1, t1⟩]) ++
        [⟨tid, none, some e, wid2, t2⟩] := by
    rw [hdb2, hdb1]
  have hlat : latestResult db2.task_results tid =
      some ⟨tid, none, some e, wid2, t2⟩ := by
    rw [hres2]
    refine latest_append_newer _ _ tid rfl ?_
    intro x hx hxid
    rcases List.mem_append.mp hx with hx1 | hx2
    · exact Nat.lt_trans (hold x hx1 hxid) h12
    · rw [List.mem_singleton.mp hx2]
      exact h12
  refine ⟨db1, db2, h1, h2,
    ⟨⟨row.id, kind, row.input_data, .failed, row.created_at, row.assigned_to,
      some ⟨tid, none, some e, wid2, t2⟩⟩, ?_, rfl, rfl⟩, ?_⟩
  · simp only [getTaskById, hfind2, hkinds2, hkind, hlat, if_true]
  · rw [hres2]
    simp [List.mem_append]

/-- A store holding one kind and one pending task with id 1. -/
def dbC6 : Db := ⟨[kindK], [⟨1, 1, none, .pending, none, 0⟩], []⟩

/-- C6 witness: upload a result at time 1 and an error at time 2; the
get surfaces the error row, the result row stays in the table. -/
theorem latest_error_after_result_witness :
    ∃ db1 db2,
      uploadTaskResult dbC6 1 5 (.str "o") 1 = some db1
      ∧ uploadTaskError db1 1 6 (.str "e") 2 = some db2
      ∧ (∃ task, getTaskById db2 1 true = some task
          ∧ task.status = .failed
          ∧ task.result = some ⟨1, none, some (.str "e"), 6, 2⟩)
      ∧ (⟨1, some (.str "o"), none, 5, 1⟩ : TaskResult) ∈ db2.task_results :=
  latest_error_after_result dbC6 1 5 6 (.str "o") (.str "e") 1 2
    ⟨1, 1, none, .pending, none, 0⟩ kindK (by decide) (by decide)
    (by decide) (by decide)

end FastTQ
